import Mathlib

/-!
Shallow embedding of `portfolio_builder.py`.

The module has three functions: `get_all_stock_data` (validate query
parameters, one HTTP GET, parse JSON or return `None`), `save_to_excel`
(timestamped filename, write a spreadsheet), and `main` (fetch with a fixed
example parameter set, conditionally save).  Side effects (the HTTP request,
log lines, the file write) are modelled as an explicit effect trace; the
outcome of the one network call is an explicit argument of type `NetResult`;
the current time enters only through the preformatted timestamp string that
`save_to_excel` would obtain from `datetime.now().strftime`.
-/

set_option autoImplicit false
set_option linter.unusedVariables false

namespace PortfolioBuilder

/-- A Python number that can appear as the `limit` argument or as a score
value: an `int`, or a `float` modelled as a rational. -/
inductive PyNum where
  | int (i : Int)
  | float (q : ℚ)
  deriving DecidableEq

/-- The rational value of a Python number, as used by numeric comparisons. -/
def PyNum.toRat : PyNum → ℚ
  | .int i => (i : ℚ)
  | .float q => q

/-- The test `isinstance(limit, int)`. -/
def PyNum.isInt : PyNum → Bool
  | .int _ => true
  | .float _ => false

/-- A parsed JSON value, the body of an API response. -/
inductive Json where
  | null
  | bool (b : Bool)
  | num (q : ℚ)
  | str (s : String)
  | arr (elems : List Json)
  | obj (fields : List (String × Json))

/-- Python truthiness of a parsed JSON value: `None`, `False`, zero, the
empty string, the empty list and the empty dict are falsy. -/
def Json.truthy : Json → Bool
  | .null => false
  | .bool b => b
  | .num q => decide (q ≠ 0)
  | .str s => decide (s ≠ "")
  | .arr elems => !elems.isEmpty
  | .obj fields => !fields.isEmpty

/-- Python truthiness of an optional string argument: `None` and the empty
string are falsy. -/
def strTruthy : Option String → Bool
  | none => false
  | some s => decide (s ≠ "")

/-- Python truthiness of the optional `scores` dict: `None` and the empty
dict are falsy (the `if scores:` guard). -/
def scoresTruthy : Option (List (String × PyNum)) → Bool
  | none => false
  | some l => decide (l ≠ [])

/-- Python truthiness of the fetch result seen by `main` (`if stock_data:`):
`None` is falsy, otherwise the truthiness of the JSON value. -/
def optJsonTruthy : Option Json → Bool
  | none => false
  | some j => j.truthy

/-- The distinct `ValueError` conditions raised by `get_all_stock_data`. -/
inductive ValError where
  | missingDateOrTicker
  | invalidMarket (m : String)
  | invalidLimit (l : PyNum)
  | invalidScoreKey (k : String)
  | invalidScoreValue (k : String)
  deriving DecidableEq

/-- A value stored in the `params` dict passed to `requests.get`. -/
inductive ParamVal where
  | str (v : String)
  | num (v : PyNum)
  | pyNone
  deriving DecidableEq

/-- An optional string argument as it is stored in the `params` dict
(`None` is stored as-is and later omitted by the HTTP client). -/
def optStrParam : Option String → ParamVal
  | none => .pyNone
  | some s => .str s

/-- The arguments of `get_all_stock_data`, with the Python default values. -/
structure Args where
  market : String := "USA"
  limit : PyNum := .int 100
  date : Option String := none
  ticker : Option String := none
  scores : Option (List (String × PyNum)) := none

/-- The list `['USA', 'europe']` of valid markets. -/
def validMarkets : List String := ["USA", "europe"]

/-- The list of valid score keys. -/
def validScoreKeys : List String :=
  ["aiscore", "fundamental", "technical", "sentiment"]

/-- The `for key, value in scores.items()` loop: each entry is checked
(key in the fixed list, value between 1 and 10) and appended to the params
dict; the first bad entry raises. -/
def scoreLoop : List (String × PyNum) → List (String × ParamVal) →
    Except ValError (List (String × ParamVal))
  | [], acc => .ok acc
  | (k, v) :: rest, acc =>
      if k ∉ validScoreKeys then .error (.invalidScoreKey k)
      else if ¬ (1 ≤ v.toRat ∧ v.toRat ≤ 10) then .error (.invalidScoreValue k)
      else scoreLoop rest (acc ++ [(k, ParamVal.num v)])

/-- The validation prefix of `get_all_stock_data`: the checks in source
order, building the `params` dict, before any network activity. -/
def buildParams (a : Args) : Except ValError (List (String × ParamVal)) :=
  if strTruthy a.date = false ∧ strTruthy a.ticker = false then
    .error .missingDateOrTicker
  else if a.market ∉ validMarkets then
    .error (.invalidMarket a.market)
  else if a.limit.isInt = false ∨ a.limit.toRat ≤ 0 then
    .error (.invalidLimit a.limit)
  else
    let base := [("market", ParamVal.str a.market), ("limit", ParamVal.num a.limit),
                 ("date", optStrParam a.date), ("ticker", optStrParam a.ticker)]
    if scoresTruthy a.scores = true then scoreLoop (a.scores.getD []) base
    else .ok base

/-- An HTTP response as `get_all_stock_data` observes it: status code, the
`Content-Type` header (`headers.get` returns `None` when absent), and the
parsed body. -/
structure NetResponse where
  status : Nat
  contentType : Option String
  body : Json

/-- The outcome of the one `requests.get` call: either an exception from the
HTTP client (network failure), or a response. -/
inductive NetResult where
  | netError (msg : String)
  | response (r : NetResponse)

/-- The check `response.raise_for_status()` performs: it raises `HTTPError`
exactly for client-error (4xx) and server-error (5xx) status codes. -/
def raisesForStatus (status : Nat) : Bool :=
  decide (400 ≤ status ∧ status < 600)

/-- An observable side effect of the program. -/
inductive Effect where
  | httpRequest (params : List (String × ParamVal))
  | logInfo (msg : String)
  | logError (msg : String)
  | fileWrite (filename : String)
  deriving DecidableEq

/-- The `try` block of `get_all_stock_data` given the outcome of the network
call: `raise_for_status`, the exact content-type comparison, and the
`except requests.exceptions.RequestException` handler.  The text of the
exception rendered into the error log line is abstracted to the status
code. -/
def fetchResponse (net : NetResult) : List Effect × Option Json :=
  match net with
  | .netError msg => ([.logError ("Error fetching data: " ++ msg)], none)
  | .response r =>
      if raisesForStatus r.status then
        ([.logError ("Error fetching data: " ++ toString r.status)], none)
      else if r.contentType = some "application/json" then
        ([.logInfo "Data fetched successfully."], some r.body)
      else
        ([.logError "Unexpected response format."], none)

/-- The function `get_all_stock_data`: validation (which may raise a
`ValueError`, the `Except.error` case), then the single HTTP request and the
handling of its outcome.  The returned trace lists the side effects in
order; the second component is the Python return value (`None` or the parsed
JSON) or the uncaught validation error. -/
def get_all_stock_data (a : Args) (net : NetResult) :
    List Effect × Except ValError (Option Json) :=
  match buildParams a with
  | .error e => ([], .error e)
  | .ok ps => (Effect.httpRequest ps :: (fetchResponse net).1, .ok (fetchResponse net).2)

/-- A fuel-indexed scan implementing Python `str.replace`: every
non-overlapping occurrence of `old` is replaced by `new`, left to right.
The fuel is the length of the scanned list, so it never runs out. -/
def replaceFuel (old new : List Char) : Nat → List Char → List Char
  | _, [] => []
  | 0, l => l
  | fuel + 1, c :: rest =>
      if 0 < old.length ∧ old.isPrefixOf (c :: rest) then
        new ++ replaceFuel old new fuel (rest.drop (old.length - 1))
      else
        c :: replaceFuel old new fuel rest

/-- Python `s.replace(old, new)` for a non-empty pattern. -/
def pyReplace (s old new : String) : String :=
  ⟨replaceFuel old.data new.data s.data.length s.data⟩

/-- The filename computed by `save_to_excel`:
`filename.replace(".xlsx", "_" + timestamp + ".xlsx")`. -/
def final_filename (filename ts : String) : String :=
  pyReplace filename ".xlsx" ("_" ++ ts ++ ".xlsx")

/-- The effect trace of `save_to_excel` on its success path: one file write
under the timestamped name, then the info log line.  `ts` is the
`datetime.now().strftime` timestamp taken at the time of the call. -/
def save_to_excel (data : Json) (filename ts : String) : List Effect :=
  [.fileWrite (final_filename filename ts),
   .logInfo ("Data saved to " ++ final_filename filename ts)]

/-- The fixed example arguments `main` passes to `get_all_stock_data`. -/
def exampleArgs : Args :=
  { market := "USA", limit := .int 100, date := some "2024-01-02",
    ticker := none, scores := some [("aiscore", PyNum.int 10)] }

/-- The function `main`: the start log line, the fetch with the fixed
example arguments, then `if stock_data: save_to_excel(stock_data)` with the
error log line on the falsy branch.  A validation error would propagate
uncaught (the `Except.error` case). -/
def main (net : NetResult) (ts : String) : List Effect × Except ValError Unit :=
  let pre := [Effect.logInfo "Starting data retrieval process..."]
  let fetched := get_all_stock_data exampleArgs net
  match fetched.2 with
  | .error e => (pre ++ fetched.1, .error e)
  | .ok stockData =>
      if optJsonTruthy stockData = true then
        (pre ++ fetched.1 ++ save_to_excel (stockData.getD Json.null) "stocks_data.xlsx" ts,
         .ok ())
      else
        (pre ++ fetched.1 ++ [Effect.logError "No data to save."], .ok ())

/-- The configuration error raised at import time when the API key is
missing. -/
inductive ConfigError where
  | missingApiKey
  deriving DecidableEq

/-- The module-level API-key check: `os.getenv` yields `None` when the
variable is absent, and `if not API_KEY: raise ValueError(...)` rejects both
`None` and the empty string. -/
def loadApiKey (env : Option String) : Except ConfigError String :=
  match env with
  | none => .error .missingApiKey
  | some s => if s = "" then .error .missingApiKey else .ok s

/-- Running the module as a script: the API-key check at import time, then
`main()`.  When the key check fails the process terminates with the
configuration error and no effect has happened. -/
def runScript (env : Option String) (net : NetResult) (ts : String) :
    List Effect × Except (ConfigError ⊕ ValError) Unit :=
  match loadApiKey env with
  | .error e => ([], .error (Sum.inl e))
  | .ok _ =>
      let res := main net ts
      (res.1, res.2.mapError Sum.inr)

/-- Whether a trace contains an invocation of the exporter (its file
write). -/
def saveInvoked (effs : List Effect) : Bool :=
  effs.any fun e => match e with | .fileWrite _ => true | _ => false

/-- Whether a trace contains the HTTP request. -/
def httpRequested (effs : List Effect) : Bool :=
  effs.any fun e => match e with | .httpRequest _ => true | _ => false

/-- The filename the specification describes: the part of the base name
before its final dot, an underscore, the timestamp, and the extension. -/
def specTimestampedFilename (stem ext ts : String) : String :=
  stem ++ "_" ++ ts ++ "." ++ ext

/-- The condition, taken from the validation checks of
`get_all_stock_data`, under which the input violates some validation
constraint: missing date-and-ticker, invalid market, non-integer or
non-positive limit, or a score entry with a bad key or an out-of-range
value (in a truthy scores dict). -/
def violatesValidation (a : Args) : Prop :=
  (strTruthy a.date = false ∧ strTruthy a.ticker = false) ∨
  a.market ∉ validMarkets ∨
  a.limit.isInt = false ∨ a.limit.toRat ≤ 0 ∨
  (scoresTruthy a.scores = true ∧
    ∃ kv ∈ a.scores.getD [], kv.1 ∉ validScoreKeys ∨ ¬ (1 ≤ kv.2.toRat ∧ kv.2.toRat ≤ 10))

/-- A successful JSON response whose body is the empty list: non-null but
falsy in Python. -/
def emptyListNet : NetResult :=
  .response { status := 200, contentType := some "application/json", body := Json.arr [] }

/-- Arguments that are valid except that the score value for `aiscore` is
the non-integer 5.5, which is inside the range check `1 <= value <= 10`. -/
def halfScoreArgs : Args :=
  { market := "USA", limit := .int 100, date := some "2024-01-02",
    ticker := none, scores := some [("aiscore", PyNum.float (mkRat 11 2))] }

/-- A successful JSON response with a one-element body. -/
def oneRowNet : NetResult :=
  .response { status := 200, contentType := some "application/json",
              body := Json.arr [Json.str "AAPL"] }

/-- An HTTP-success response whose content type carries a charset
parameter, hence is not the exact string `application/json`. -/
def charsetResponse : NetResponse :=
  { status := 200, contentType := some "application/json; charset=utf-8",
    body := Json.null }

/-- C6: when neither date nor ticker is set (both falsy), `get_all_stock_data`
raises the missing-date-or-ticker validation error, with no side effect,
regardless of market, limit and scores. -/
theorem missing_date_ticker_raises (a : Args) (net : NetResult)
    (hd : strTruthy a.date = false) (ht : strTruthy a.ticker = false) :
    get_all_stock_data a net = ([], .error .missingDateOrTicker) := by
  simp [get_all_stock_data, buildParams, hd, ht]

/-- C6 witness: with date and ticker absent, the call fails with the
missing-date-or-ticker error even though market, limit and scores are all
themselves invalid. -/
theorem missing_date_ticker_raises_witness :
    get_all_stock_data
      { market := "mars", limit := PyNum.int 0, date := none, ticker := none,
        scores := some [("bogus", PyNum.int 99)] } (NetResult.netError "x")
      = ([], .error .missingDateOrTicker) :=
  missing_date_ticker_raises _ _ rfl rfl

/-- C10: empty-string date and ticker are treated exactly like omitted ones:
both calls raise the same missing-date-or-ticker validation error. -/
theorem empty_string_date_ticker_like_absent (m : String) (l : PyNum)
    (s : Option (List (String × PyNum))) (net : NetResult) :
    get_all_stock_data { market := m, limit := l, date := some "", ticker := some "", scores := s } net
      = ([], .error .missingDateOrTicker) ∧
    get_all_stock_data { market := m, limit := l, date := none, ticker := none, scores := s } net
      = get_all_stock_data { market := m, limit := l, date := some "", ticker := some "", scores := s } net := by
  constructor
  · simp [get_all_stock_data, buildParams, strTruthy]
  · simp [get_all_stock_data, buildParams, strTruthy]

/-- C8: when the API-key environment variable is absent or empty, the script
stops with the configuration error and the effect trace is empty: no fetch,
no network request and no file write happened. -/
theorem missing_api_key_fails_fast (net : NetResult) (ts : String) :
    runScript none net ts = ([], .error (Sum.inl ConfigError.missingApiKey)) ∧
    runScript (some "") net ts = ([], .error (Sum.inl ConfigError.missingApiKey)) :=
  ⟨rfl, rfl⟩

/-- C9: the content-type test is exact string equality with
`application/json`: on an HTTP-success response with any other content type
the fetch logs the unexpected-format error and returns null. -/
theorem content_type_exact_match (r : NetResponse)
    (h1 : raisesForStatus r.status = false)
    (h2 : r.contentType ≠ some "application/json") :
    fetchResponse (.response r) = ([.logError "Unexpected response format."], none) := by
  simp [fetchResponse, h1, h2]

/-- C9 witness: a 200 response with content type
`application/json; charset=utf-8` is rejected by the exact comparison. -/
theorem content_type_exact_match_witness :
    raisesForStatus charsetResponse.status = false ∧
    fetchResponse (.response charsetResponse)
      = ([.logError "Unexpected response format."], none) :=
  ⟨rfl, content_type_exact_match charsetResponse rfl (by decide)⟩

/-- C2 counterexample: for the base filename `data.csv` the exporter does
not insert the timestamp before the extension at all; the computed filename
is the unchanged base name, because the code only rewrites occurrences of
the substring `.xlsx`. -/
theorem filename_counterexample :
    final_filename "data.csv" "20240102030405" = "data.csv" ∧
    final_filename "data.csv" "20240102030405" ≠
      specTimestampedFilename "data" "csv" "20240102030405" := by
  constructor
  · rfl
  · decide

/-- C2 amended: `save_to_excel` rewrites every occurrence of the substring
`.xlsx` to `_<timestamp>.xlsx`; for the default base `stocks_data.xlsx`,
whose only occurrence is its extension, this inserts the timestamp of the
call immediately before the extension, while a base without `.xlsx` is left
unchanged. -/
theorem filename_timestamp_insertion (ts : String) :
    final_filename "stocks_data.xlsx" ts = "stocks_data_" ++ ts ++ ".xlsx" ∧
    final_filename "data.csv" ts = "data.csv" := by
  constructor
  · have h : final_filename "stocks_data.xlsx" ts
        = ⟨"stocks_data".data ++ ('_' :: ((ts.data ++ ".xlsx".data) ++ []))⟩ := rfl
    rw [h]
    show String.mk _ = String.mk (("stocks_data_".data ++ ts.data) ++ ".xlsx".data)
    exact congrArg String.mk (by simp)
  · rfl

/-- C4 counterexample: with the non-integer score value 5.5 for `aiscore`
(and otherwise valid arguments) `get_all_stock_data` raises no validation
error: it issues the HTTP request and returns the parsed body, because the
score check only tests `1 <= value <= 10`. -/
theorem score_float_counterexample :
    (get_all_stock_data halfScoreArgs oneRowNet).2
        = Except.ok (some (Json.arr [Json.str "AAPL"])) ∧
    httpRequested (get_all_stock_data halfScoreArgs oneRowNet).1 = true :=
  ⟨rfl, rfl⟩

/-- C4 amended: the score-value check of `get_all_stock_data` is the range
test `1 <= value <= 10` only: for a single `aiscore` entry with value `v`
(and otherwise valid arguments) the call raises a validation error exactly
when `v` is outside `[1, 10]`; any numeric value inside the range passes,
integer or not. -/
theorem score_value_range_only (v : PyNum) (net : NetResult) :
    (∃ e, (get_all_stock_data
        { market := "USA", limit := PyNum.int 100, date := some "2024-01-02",
          ticker := none, scores := some [("aiscore", v)] } net).2 = Except.error e)
      ↔ ¬ (1 ≤ v.toRat ∧ v.toRat ≤ 10) := by
  have hlim : ¬ (PyNum.int 100).toRat ≤ 0 := by norm_num [PyNum.toRat]
  by_cases hr : 1 ≤ v.toRat ∧ v.toRat ≤ 10
  · simp [get_all_stock_data, buildParams, scoreLoop, strTruthy, scoresTruthy,
      validMarkets, validScoreKeys, PyNum.isInt, hlim, hr]
  · simp [get_all_stock_data, buildParams, scoreLoop, strTruthy, scoresTruthy,
      validMarkets, validScoreKeys, PyNum.isInt, hlim, hr]

/-- C3: the parsed JSON body is returned exactly when the network call
produced a response with a success status (no `raise_for_status` error) and
the exact JSON content type; in every other case — network failure, error
status, other content type — the fetch returns null and logs an error
instead of throwing. -/
theorem fetch_soft_failure (net : NetResult) :
    (∀ j, (fetchResponse net).2 = some j ↔
      ∃ r, net = NetResult.response r ∧ raisesForStatus r.status = false ∧
        r.contentType = some "application/json" ∧ j = r.body) ∧
    ((fetchResponse net).2 = none → ∃ m, Effect.logError m ∈ (fetchResponse net).1) := by
  cases net with
  | netError msg => simp [fetchResponse]
  | response r =>
      by_cases h1 : raisesForStatus r.status
      · simp [fetchResponse, h1]
      · by_cases h2 : r.contentType = some "application/json"
        · simp [fetchResponse, h1, h2]
          intro j
          constructor
          · intro h
            exact h.symm
          · intro h
            exact h.symm
        · simp [fetchResponse, h1, h2]

/-- C3 witness: on a network failure the fetch result is null and an error
line is logged. -/
theorem fetch_soft_failure_witness :
    ∃ m, Effect.logError m ∈ (fetchResponse (NetResult.netError "connection refused")).1 :=
  (fetch_soft_failure (NetResult.netError "connection refused")).2 rfl

/-- When some entry of the scores dict has an invalid key or an
out-of-range value, the score loop raises a score validation error. -/
theorem scoreLoop_error_of_bad (l : List (String × PyNum))
    (acc : List (String × ParamVal))
    (h : ∃ kv ∈ l, kv.1 ∉ validScoreKeys ∨ ¬ (1 ≤ kv.2.toRat ∧ kv.2.toRat ≤ 10)) :
    ∃ k, scoreLoop l acc = .error (.invalidScoreKey k) ∨
         scoreLoop l acc = .error (.invalidScoreValue k) := by
  induction l generalizing acc with
  | nil => simp at h
  | cons kv rest ih =>
      obtain ⟨k, v⟩ := kv
      by_cases hk : k ∈ validScoreKeys
      · by_cases hv : 1 ≤ v.toRat ∧ v.toRat ≤ 10
        · have h' : ∃ kv ∈ rest,
              kv.1 ∉ validScoreKeys ∨ ¬ (1 ≤ kv.2.toRat ∧ kv.2.toRat ≤ 10) := by
            rcases h with ⟨kv', hmem, hbad⟩
            rcases List.mem_cons.mp hmem with heq | hmem'
            · subst heq
              simp [hk, hv] at hbad
            · exact ⟨kv', hmem', hbad⟩
          simpa [scoreLoop, hk, hv] using ih (acc ++ [(k, ParamVal.num v)]) h'
        · exact ⟨k, Or.inr (by simp [scoreLoop, hk, hv])⟩
      · exact ⟨k, Or.inl (by simp [scoreLoop, hk])⟩

/-- C7: whenever the scores mapping contains a key outside the four
recognised categories or a value outside the range, and the other arguments
are valid so that the score check is reached, the call fails with a score
validation error and performs no side effect. -/
theorem bad_score_entry_raises (a : Args) (net : NetResult)
    (l : List (String × PyNum)) (hs : a.scores = some l)
    (hbad : ∃ kv ∈ l, kv.1 ∉ validScoreKeys ∨ ¬ (1 ≤ kv.2.toRat ∧ kv.2.toRat ≤ 10))
    (hdt : ¬ (strTruthy a.date = false ∧ strTruthy a.ticker = false))
    (hm : a.market ∈ validMarkets)
    (hl : ¬ (a.limit.isInt = false ∨ a.limit.toRat ≤ 0)) :
    ∃ k, get_all_stock_data a net = ([], .error (.invalidScoreKey k)) ∨
         get_all_stock_data a net = ([], .error (.invalidScoreValue k)) := by
  have hne : l ≠ [] := by
    rintro rfl
    simp at hbad
  have hst : scoresTruthy (some l) = true := by simp [scoresTruthy, hne]
  obtain ⟨k, hk⟩ := scoreLoop_error_of_bad l
      [("market", ParamVal.str a.market), ("limit", ParamVal.num a.limit),
       ("date", optStrParam a.date), ("ticker", optStrParam a.ticker)] hbad
  refine ⟨k, ?_⟩
  rcases hk with hk | hk
  · exact Or.inl (by simp [get_all_stock_data, buildParams, hdt, hm, hl, hst, hs, hk])
  · exact Or.inr (by simp [get_all_stock_data, buildParams, hdt, hm, hl, hst, hs, hk])

/-- Arguments whose scores dict has one valid entry followed by an entry
with an unrecognised key; everything else is valid. -/
def badKeyArgs : Args :=
  { market := "USA", limit := .int 5, date := some "2024-01-02",
    ticker := none, scores := some [("aiscore", PyNum.int 3), ("momentum", PyNum.int 5)] }

/-- C7 witness: the unrecognised score key `momentum` makes the otherwise
valid call fail with a score validation error and no side effect. -/
theorem bad_score_entry_raises_witness :
    ∃ k, get_all_stock_data badKeyArgs (NetResult.netError "x")
        = ([], .error (.invalidScoreKey k)) ∨
      get_all_stock_data badKeyArgs (NetResult.netError "x")
        = ([], .error (.invalidScoreValue k)) :=
  bad_score_entry_raises badKeyArgs (NetResult.netError "x") _ rfl
    (by decide) (by decide) (by decide) (by decide)

/-- C5: on every input that violates a validation constraint the call
raises a validation error and the effect trace is empty: in particular no
HTTP request is made. -/
theorem invalid_input_no_network (a : Args) (net : NetResult)
    (h : violatesValidation a) :
    (∃ e, get_all_stock_data a net = ([], Except.error e)) ∧
    httpRequested (get_all_stock_data a net).1 = false := by
  have hb : ∃ e, buildParams a = .error e := by
    by_cases h1 : strTruthy a.date = false ∧ strTruthy a.ticker = false
    · exact ⟨.missingDateOrTicker, by simp [buildParams, h1]⟩
    · by_cases h2 : a.market ∈ validMarkets
      · by_cases h3 : a.limit.isInt = false ∨ a.limit.toRat ≤ 0
        · exact ⟨.invalidLimit a.limit, by simp [buildParams, h1, h2, h3]⟩
        · rcases h with h | h | h | h | h
          · exact absurd h h1
          · exact absurd h2 h
          · exact absurd (Or.inl h) h3
          · exact absurd (Or.inr h) h3
          · obtain ⟨hst, hbad⟩ := h
            obtain ⟨lst, hsome⟩ : ∃ lst, a.scores = some lst := by
              cases hsc : a.scores with
              | none => rw [hsc] at hst; simp [scoresTruthy] at hst
              | some lst => exact ⟨lst, rfl⟩
            rw [hsome] at hbad hst
            simp only [Option.getD_some] at hbad
            obtain ⟨k, hk⟩ := scoreLoop_error_of_bad lst
                [("market", ParamVal.str a.market), ("limit", ParamVal.num a.limit),
                 ("date", optStrParam a.date), ("ticker", optStrParam a.ticker)] hbad
            rcases hk with hk | hk
            · exact ⟨.invalidScoreKey k, by simp [buildParams, h1, h2, h3, hst, hsome, hk]⟩
            · exact ⟨.invalidScoreValue k, by simp [buildParams, h1, h2, h3, hst, hsome, hk]⟩
      · exact ⟨.invalidMarket a.market, by simp [buildParams, h1, h2]⟩
  obtain ⟨e, he⟩ := hb
  refine ⟨⟨e, ?_⟩, ?_⟩
  · simp [get_all_stock_data, he]
  · simp [get_all_stock_data, he, httpRequested]

/-- Arguments with an invalid market name and everything else valid. -/
def asiaArgs : Args :=
  { market := "asia", limit := .int 10, date := some "2024-01-02",
    ticker := none, scores := none }

/-- C5 witness: with an invalid market the call raises a validation error
and its effect trace is empty, so no HTTP request was made. -/
theorem invalid_input_no_network_witness :
    (∃ e, get_all_stock_data asiaArgs (NetResult.netError "x") = ([], Except.error e)) ∧
    httpRequested (get_all_stock_data asiaArgs (NetResult.netError "x")).1 = false :=
  invalid_input_no_network asiaArgs (NetResult.netError "x")
    (by unfold violatesValidation; decide)

/-- The fixed example arguments of `main` pass validation and produce this
params dict. -/
theorem buildParams_example :
    buildParams exampleArgs = .ok
      [("market", ParamVal.str "USA"), ("limit", ParamVal.num (PyNum.int 100)),
       ("date", ParamVal.str "2024-01-02"), ("ticker", ParamVal.pyNone),
       ("aiscore", ParamVal.num (PyNum.int 10))] :=
  rfl

/-- C1 counterexample: a successful fetch of the empty JSON list is a
non-null result, yet `main` does not invoke the exporter and logs the
no-data message, because `if stock_data:` tests Python truthiness and the
empty list is falsy. -/
theorem empty_result_counterexample :
    (get_all_stock_data exampleArgs emptyListNet).2 = Except.ok (some (Json.arr [])) ∧
    saveInvoked (main emptyListNet "20240101000000").1 = false ∧
    Effect.logError "No data to save." ∈ (main emptyListNet "20240101000000").1 :=
  ⟨rfl, rfl, by decide⟩

/-- C1 amended: `main` invokes the exporter exactly when the fetch result
is truthy (non-null and non-empty), and logs that there is nothing to save
exactly when the result is null or falsy. -/
theorem save_iff_truthy (net : NetResult) (ts : String) :
    saveInvoked (main net ts).1 = optJsonTruthy (fetchResponse net).2 ∧
    (Effect.logError "No data to save." ∈ (main net ts).1 ↔
      optJsonTruthy (fetchResponse net).2 = false) := by
  cases net with
  | netError msg =>
      simp [main, get_all_stock_data, buildParams_example, fetchResponse,
        optJsonTruthy, saveInvoked]
  | response r =>
      by_cases h1 : raisesForStatus r.status
      · simp [main, get_all_stock_data, buildParams_example, fetchResponse, h1,
          optJsonTruthy, saveInvoked]
      · by_cases h2 : r.contentType = some "application/json"
        · by_cases h3 : r.body.truthy = true
          · simp [main, get_all_stock_data, buildParams_example, fetchResponse, h1, h2, h3,
              optJsonTruthy, saveInvoked, save_to_excel]
          · simp [main, get_all_stock_data, buildParams_example, fetchResponse, h1, h2, h3,
              optJsonTruthy, saveInvoked]
        · simp [main, get_all_stock_data, buildParams_example, fetchResponse, h1, h2,
            optJsonTruthy, saveInvoked]

end PortfolioBuilder
